import Mathlib

/-!
OclCache: build-or-load of an OpenCL program with an on-disk binary cache

A shallow embedding of `src/amd/OclCache.cpp` (`OclCache::load`, `prepare`,
`save`, `numDevices`, `devId`).

The OpenCL backend (`OclLib`), the hash and text encoder, the platform
helpers (`prefix`, `createDirectory`, `sleep`, `Cpu::isX64`), the file system
and the constants of `OclError.h` are not part of `OclCache.cpp`; they enter
the model as parameters (`Platform`, `Backend`, `FS`).  Every call that leaves
`OclCache.cpp` is recorded as an `Event`, in program order, so that statements
such as "the source compiler is not called" are statements about the trace.

Not represented: the program handle stored in `m_ctx->Program` (the backend
answers are those for the program at hand), the elapsed-time arithmetic of the
log message, and the local `mem_size` of `save`, which is summed and never read.
-/

/-- Device handle (`cl_device_id`); `0` is the null handle of a value-initialised vector. -/
abbrev DeviceId := Nat

/-- One byte of a program binary. -/
abbrev Byte := UInt8

/-- Value of `CL_BUILD_IN_PROGRESS` in the OpenCL headers. -/
def CL_BUILD_IN_PROGRESS : Int := -3

/-- Value of `CL_BUILD_SUCCESS` in the OpenCL headers. -/
def CL_BUILD_SUCCESS : Int := 0

/-- Value of `CL_BUILD_ERROR` in the OpenCL headers. -/
def CL_BUILD_ERROR : Int := -2

/-- The fields of `GpuContext` that `OclCache.cpp` reads. -/
structure GpuContext where
  DeviceID : DeviceId
  deviceIdx : Nat
  workSize : Nat
  stridedIndex : Int
  memChunk : Nat
  compMode : Int
  deriving DecidableEq, Repr

/-- The parts of `xmrig::Config` that `OclCache.cpp` reads. -/
structure Config where
  isOclCache : Bool
  isColors : Bool
  algo : Int
  deriving DecidableEq, Repr

/-- The members of class `OclCache`. -/
structure OclCache where
  m_oclCtx : Nat
  m_sourceCode : String
  m_ctx : GpuContext
  m_index : Int
  m_fileName : String
  m_config : Config
  deriving DecidableEq, Repr

/-- Constants and pure helpers defined outside `OclCache.cpp`. -/
structure Platform where
  /-- `Cpu::isX64()`. -/
  isX64 : Bool
  /-- Whether `_WIN32` is defined. -/
  win32 : Bool
  /-- `OclCache::prefix()`. -/
  prefixDir : String
  /-- The macro `OCL_ERR_API` of `amd/OclError.h`. -/
  OCL_ERR_API : Int
  /-- `xmrig::keccak`: key bytes to the 200-byte state. -/
  keccak : String → List Byte
  /-- `base32_encode` of a byte buffer, as the C string left in `hash`. -/
  base32_encode : List Byte → String
  /-- `xmrig::cn_select_iter(algo, VARIANT_0)`. -/
  cn_select_iter : Int → Nat
  /-- `xmrig::cn_select_mask(algo)`. -/
  cn_select_mask : Int → Nat
  /-- `xmrig::cn_select_memory(algo)`. -/
  cn_select_memory : Int → Nat

/-- Answers of the OpenCL backend behind `OclLib`.  `none` (or `false`) is a
call that does not return `CL_SUCCESS`. -/
structure Backend where
  /-- `getDeviceInfo(dev, CL_DEVICE_NAME)`. -/
  deviceName : DeviceId → Option String
  /-- `createProgramWithSource`: whether `ret == CL_SUCCESS`. -/
  createProgramWithSource : String → Bool
  /-- `createProgramWithBinary`: whether `ret == CL_SUCCESS`. -/
  createProgramWithBinary : List Byte → Bool
  /-- `buildProgram`, with the options string of the source variant or without. -/
  buildProgram : Option String → Bool
  /-- `getProgramBuildInfo(CL_PROGRAM_BUILD_LOG)` asking for the length. -/
  buildLogLength : Option Nat
  /-- `getProgramBuildInfo(CL_PROGRAM_BUILD_LOG)` asking for the text. -/
  buildLog : Option String
  /-- Answer to the `i`-th `getProgramBuildInfo(CL_PROGRAM_BUILD_STATUS)` query. -/
  buildStatus : Nat → Option Int
  /-- `getProgramInfo(CL_PROGRAM_NUM_DEVICES)`. -/
  programNumDevices : Option Nat
  /-- `getProgramInfo(CL_PROGRAM_DEVICES)`: the backend's device list. -/
  programDevices : Option (List DeviceId)
  /-- `getProgramInfo(CL_PROGRAM_BINARY_SIZES)`. -/
  programBinarySizes : Option (List Nat)
  /-- `getProgramInfo(CL_PROGRAM_BINARIES)`: one binary per device. -/
  programBinaries : Option (List (List Byte))

/-- The file system as `OclCache.cpp` sees it. -/
structure FS where
  /-- Contents of the file at a path, when it opens for binary read. -/
  files : String → Option (List Byte)
  /-- Whether the path opens for binary write (after `createDirectory`). -/
  canOpenWrite : String → Bool
  /-- `none`: a write to the path completes; `some k`: it fails after `k` bytes. -/
  writeLimit : String → Option Nat

/-- Calls that leave `OclCache.cpp`, in program order. -/
inductive Event where
  | getDeviceInfo
  | openRead (path : String)
  | readAll (path : String)
  | logInfo
  | createProgramWithSource (source : String)
  | buildProgram (options : Option String)
  | getBuildLogLength
  | getBuildLog
  | printBuildLog (text : String)
  | getNumDevices
  | getDevices
  | getBuildStatus
  | sleep (sec : Nat)
  | createProgramWithBinary (data : List Byte)
  | logNotice (path : String)
  | createDirectory
  | getBinarySizes
  | getBinaries
  | openWrite (path : String)
  | write (path : String) (data : List Byte)
  deriving DecidableEq, Repr

/-- How a call ends. -/
inductive Outcome where
  /-- The function returned this `bool`. -/
  | returned (b : Bool)
  /-- A vector was indexed outside its bounds (undefined behaviour). -/
  | outOfRange
  /-- The wait loop is still polling when the step budget is used up. -/
  | polling
  deriving DecidableEq, Repr

/-- Result of running a member function: outcome, trace, file system, object. -/
structure Run where
  result : Outcome
  trace : List Event
  fs : FS
  cache : OclCache

/-- Conversion of an `int` expression to the `bool` return type. -/
def intToBool (i : Int) : Bool := decide (i ≠ 0)

/-- Conversion of an unsigned 32-bit value to `int` (`static_cast<int>`). -/
def toInt32 (n : Nat) : Int :=
  if n % 2 ^ 32 < 2 ^ 31 then ((n % 2 ^ 32 : Nat) : Int) else ((n % 2 ^ 32 : Nat) : Int) - 2 ^ 32

/-- Character of a decimal digit. -/
def digitChar (d : Nat) : Char := Char.ofNat (48 + d)

/-- Conversion `%u` / `%zu` of `snprintf`: decimal digits, most significant first. -/
def fmtUnsigned (n : Nat) : String :=
  if n = 0 then "0" else String.mk ((Nat.digits 10 n).reverse.map digitChar)

/-- Conversion `%d` of `snprintf`. -/
def fmtSigned (i : Int) : String :=
  if i < 0 then "-" ++ fmtUnsigned i.natAbs else fmtUnsigned i.natAbs

/-- The `snprintf` call of `OclCache::load`: the format string filled with its
eight arguments, cut to the 511 characters that fit `char options[512]`. -/
def formatOptions (iterations mask workSize : Nat) (stridedIndex memChunkArg compMode : Int)
    (memory : Nat) (algo : Int) : String :=
  String.mk (List.take 511 (String.data (
    "-DITERATIONS=" ++ fmtUnsigned iterations ++
    " -DMASK=" ++ fmtUnsigned mask ++
    " -DWORKSIZE=" ++ fmtUnsigned workSize ++
    " -DSTRIDED_INDEX=" ++ fmtSigned stridedIndex ++
    " -DMEM_CHUNK_EXPONENT=" ++ fmtSigned memChunkArg ++
    " -DCOMP_MODE=" ++ fmtSigned compMode ++
    " -DMEMORY=" ++ fmtUnsigned memory ++
    " -DALGO=" ++ fmtSigned algo)))

/-- The argument `static_cast<int>(1u << m_ctx->memChunk)`. -/
def memChunkArg (memChunk : Nat) : Int := toInt32 (2 ^ memChunk % 2 ^ 32)

/-- Array query of `getProgramInfo` into a caller buffer: a failing query, or
an answer that does not fit the buffer, leaves the buffer as it was and is
not `CL_SUCCESS`; otherwise the answer overwrites the front of the buffer. -/
def getProgramInfo {α : Type} (answer : Option (List α)) (buf : List α) : Bool × List α :=
  match answer with
  | none => (false, buf)
  | some a => if a.length ≤ buf.length then (true, a ++ buf.drop a.length) else (false, buf)

/-- Copy of one binary into its receiving buffer (the buffer keeps its size). -/
def fillStorage (binary buf : List Byte) : List Byte :=
  (binary ++ buf.drop binary.length).take buf.length

/-- The buffers behind `all_programs` after `getProgramInfo(CL_PROGRAM_BINARIES)`. -/
def getProgramBinaries (answer : Option (List (List Byte))) (storage : List (List Byte)) :
    Bool × List (List Byte) :=
  match answer with
  | none => (false, storage)
  | some bins =>
    if bins.length ≤ storage.length then
      (true, List.zipWith fillStorage bins storage ++ storage.drop bins.length)
    else (false, storage)

namespace OclCache

/-- The options string built at the start of `load`. -/
def options (plat : Platform) (c : OclCache) : String :=
  formatOptions (plat.cn_select_iter c.m_config.algo) (plat.cn_select_mask c.m_config.algo)
    c.m_ctx.workSize c.m_ctx.stridedIndex (memChunkArg c.m_ctx.memChunk) c.m_ctx.compMode
    (plat.cn_select_memory c.m_config.algo) c.m_config.algo

/-- The string hashed by `prepare`. -/
def keyMaterial (plat : Platform) (source opts deviceName : String) : String :=
  if !plat.isX64 then source ++ opts ++ deviceName ++ "x86" else source ++ opts ++ deviceName

/-- The file name composed by `prepare` from the encoded hash. -/
def cachePath (plat : Platform) (hash : String) : String :=
  if plat.win32 then plat.prefixDir ++ "\\xmrig\\.cache\\" ++ hash ++ ".bin"
  else plat.prefixDir ++ "/.cache/" ++ hash ++ ".bin"

/-- `OclCache::prepare`: returned flag, updated object, trace. -/
def prepare (plat : Platform) (be : Backend) (c : OclCache) (opts : String) :
    Bool × OclCache × List Event :=
  match be.deviceName c.m_ctx.DeviceID with
  | none => (false, c, [Event.getDeviceInfo])
  | some state =>
    let key := keyMaterial plat c.m_sourceCode opts state
    let hash := plat.base32_encode ((plat.keccak key).take 32)
    (true, { c with m_fileName := cachePath plat hash }, [Event.getDeviceInfo])

/-- `OclCache::numDevices`: the status of the query is not inspected. -/
def numDevices (be : Backend) : Nat :=
  match be.programNumDevices with
  | some n => n
  | none => 0

/-- The vector `devices_ids` of `devId` after the device-list query. -/
def devicesIds (be : Backend) (num_devices : Nat) : List DeviceId :=
  (getProgramInfo be.programDevices (List.replicate num_devices 0)).2

/-- The range-for of `devId`: count the entries before the first match. -/
def devIdLoop (current : DeviceId) : List DeviceId → Nat → Nat
  | [], dev_id => dev_id
  | ocl_device :: rest, dev_id =>
    if ocl_device = current then dev_id else devIdLoop current rest (dev_id + 1)

/-- `OclCache::devId`.  The counter is an `int`; the model counts in `Nat`,
which is exact for every vector of fewer than `2^31` entries. -/
def devId (be : Backend) (c : OclCache) (num_devices : Nat) : Int :=
  ((devIdLoop c.m_ctx.DeviceID (devicesIds be num_devices) 0 : Nat) : Int)

/-- The vector `binary_sizes` of `save` after the sizes query. -/
def binarySizes (be : Backend) (num_devices : Nat) : List Nat :=
  (getProgramInfo be.programBinarySizes (List.replicate num_devices 0)).2

/-- The vector `program_storage` of `save` as allocated by its loop. -/
def programStorage (be : Backend) (num_devices : Nat) : List (List Byte) :=
  (binarySizes be num_devices).map (fun size => List.replicate size 0)

/-- The file system after `open` (truncating) and `write` of `data` at `path`. -/
def writeFile (fs : FS) (path : String) (data : List Byte) : FS :=
  if fs.canOpenWrite path then
    let stored : List Byte :=
      match fs.writeLimit path with
      | none => data
      | some k => data.take k
    { fs with files := fun p => if p = path then some stored else fs.files p }
  else fs

/-- `OclCache::save`. -/
def save (be : Backend) (fs : FS) (c : OclCache) (dev_id : Int) (num_devices : Nat) : Run :=
  if !c.m_config.isOclCache then
    { result := Outcome.returned true, trace := [], fs := fs, cache := c }
  else
    let binary_sizes := binarySizes be num_devices
    let program_storage := programStorage be num_devices
    let queried := getProgramBinaries be.programBinaries program_storage
    let tr := [Event.createDirectory, Event.getBinarySizes, Event.getBinaries]
    if !queried.1 then
      { result := Outcome.returned false, trace := tr, fs := fs, cache := c }
    else
      let fsOpen := writeFile fs c.m_fileName []
      if 0 ≤ dev_id ∧ dev_id.toNat < num_devices then
        let data := (queried.2.getD dev_id.toNat []).take (binary_sizes.getD dev_id.toNat 0)
        { result := Outcome.returned true
          trace := tr ++ [Event.openWrite c.m_fileName, Event.write c.m_fileName data]
          fs := writeFile fs c.m_fileName data
          cache := c }
      else
        { result := Outcome.outOfRange
          trace := tr ++ [Event.openWrite c.m_fileName]
          fs := fsOpen
          cache := c }

/-- How the do-while loop of `load` is left. -/
inductive WaitExit where
  | queryFailed
  | finished
  | polling
  deriving DecidableEq, Repr

/-- The do-while loop of `load`: query the build status, return when the query
fails, sleep one second, repeat while the status is `CL_BUILD_IN_PROGRESS`.
`fuel` bounds the number of iterations; `i` counts the queries made so far. -/
def waitBuild (be : Backend) : Nat → Nat → WaitExit × List Event
  | 0, _ => (WaitExit.polling, [])
  | fuel + 1, i =>
    match be.buildStatus i with
    | none => (WaitExit.queryFailed, [Event.getBuildStatus])
    | some status =>
      if status = CL_BUILD_IN_PROGRESS then
        ((waitBuild be fuel (i + 1)).1,
          [Event.getBuildStatus, Event.sleep 1] ++ (waitBuild be fuel (i + 1)).2)
      else (WaitExit.finished, [Event.getBuildStatus, Event.sleep 1])

/-- `OclCache::load`. -/
def load (plat : Platform) (be : Backend) (fs : FS) (fuel : Nat) (c0 : OclCache) : Run :=
  let opts := options plat c0
  match prepare plat be c0 opts with
  | (false, c, tr) => { result := Outcome.returned false, trace := tr, fs := fs, cache := c }
  | (true, c, tr0) =>
    let good := (fs.files c.m_fileName).isSome
    let tr1 := tr0 ++ [Event.openRead c.m_fileName]
    if !c.m_config.isOclCache || !good then
      let tr2 := tr1 ++ [Event.logInfo, Event.createProgramWithSource c.m_sourceCode]
      if !be.createProgramWithSource c.m_sourceCode then
        { result := Outcome.returned false, trace := tr2, fs := fs, cache := c }
      else
        let tr3 := tr2 ++ [Event.buildProgram (some opts)]
        if !be.buildProgram (some opts) then
          match be.buildLogLength with
          | none =>
            { result := Outcome.returned false, trace := tr3 ++ [Event.getBuildLogLength],
              fs := fs, cache := c }
          | some len =>
            match be.buildLog with
            | none =>
              { result := Outcome.returned false
                trace := tr3 ++ [Event.getBuildLogLength, Event.getBuildLog]
                fs := fs, cache := c }
            | some buildLog =>
              { result := Outcome.returned (intToBool plat.OCL_ERR_API)
                trace := tr3 ++ [Event.getBuildLogLength, Event.getBuildLog,
                  Event.printBuildLog (String.mk (buildLog.data.take len))]
                fs := fs, cache := c }
        else
          let num_devices := numDevices be
          let dev_id := devId be c num_devices
          let tr4 := tr3 ++ [Event.getNumDevices, Event.getDevices]
          match waitBuild be fuel 0 with
          | (WaitExit.polling, trw) =>
            { result := Outcome.polling, trace := tr4 ++ trw, fs := fs, cache := c }
          | (WaitExit.queryFailed, trw) =>
            { result := Outcome.returned (intToBool plat.OCL_ERR_API), trace := tr4 ++ trw,
              fs := fs, cache := c }
          | (WaitExit.finished, trw) =>
            let saved := save be fs c dev_id num_devices
            { saved with trace := tr4 ++ trw ++ [Event.logInfo] ++ saved.trace }
    else
      let s := (fs.files c.m_fileName).getD []
      let tr2 := tr1 ++ [Event.readAll c.m_fileName, Event.createProgramWithBinary s]
      if !be.createProgramWithBinary s then
        { result := Outcome.returned false, trace := tr2 ++ [Event.logNotice c.m_fileName],
          fs := fs, cache := c }
      else if !be.buildProgram none then
        { result := Outcome.returned false
          trace := tr2 ++ [Event.buildProgram none, Event.logNotice c.m_fileName]
          fs := fs, cache := c }
      else
        { result := Outcome.returned true, trace := tr2 ++ [Event.buildProgram none],
          fs := fs, cache := c }

end OclCache

namespace OclCache

/-- The cache path that `load` obtains from `prepare`. -/
def derivedPath (plat : Platform) (be : Backend) (c : OclCache) : String :=
  (prepare plat be c (options plat c)).2.1.m_fileName

/-- The object as `load` uses it after `prepare`. -/
def prepared (plat : Platform) (be : Backend) (c : OclCache) : OclCache :=
  (prepare plat be c (options plat c)).2.1

/-- A 64-bit Unix host; `OCL_ERR_API` has the value 2; toy hash and encoder. -/
def samplePlatform : Platform :=
  { isX64 := true, win32 := false, prefixDir := "/home/u", OCL_ERR_API := 2
    keccak := fun key => key.data.map (fun ch => UInt8.ofNat ch.toNat)
    base32_encode := fun bytes => String.mk (bytes.map (fun b => Char.ofNat (97 + b.toNat % 26)))
    cn_select_iter := fun _ => 524288
    cn_select_mask := fun _ => 2097136
    cn_select_memory := fun _ => 2097152 }

/-- A backend on which every call succeeds; the program spans devices 7 and 9. -/
def sampleBackend : Backend :=
  { deviceName := fun _ => some "gfx"
    createProgramWithSource := fun _ => true
    createProgramWithBinary := fun _ => true
    buildProgram := fun _ => true
    buildLogLength := some 3
    buildLog := some "log"
    buildStatus := fun _ => some CL_BUILD_SUCCESS
    programNumDevices := some 2
    programDevices := some [7, 9]
    programBinarySizes := some [2, 3]
    programBinaries := some [[1, 2], [3, 4, 5]] }

/-- A file system without files, where every path can be written. -/
def emptyFS : FS :=
  { files := fun _ => none, canOpenWrite := fun _ => true, writeLimit := fun _ => none }

/-- A file system that holds the bytes 1, 2, 3 at every path. -/
def fullFS : FS :=
  { files := fun _ => some [1, 2, 3], canOpenWrite := fun _ => true, writeLimit := fun _ => none }

/-- An object for device 9, caching enabled. -/
def sampleCache : OclCache :=
  { m_oclCtx := 1, m_sourceCode := "k", m_index := 0, m_fileName := ""
    m_ctx := { DeviceID := 9, deviceIdx := 0, workSize := 8, stridedIndex := 1, memChunk := 2,
               compMode := 1 }
    m_config := { isOclCache := true, isColors := false, algo := 0 } }

/-- The same object with caching disabled. -/
def sampleCacheOff : OclCache :=
  { sampleCache with m_config := { isOclCache := false, isColors := false, algo := 0 } }

end OclCache

/-- Range of `unsigned` (32 bits), the type printed by `%u`. -/
def IsUInt32 (n : Nat) : Prop := n < 2 ^ 32

/-- Range of `size_t` (at most 64 bits), the type printed by `%zu`. -/
def IsSizeT (n : Nat) : Prop := n < 2 ^ 64

/-- Range of `int` (32 bits), the type printed by `%d`. -/
def IsInt32 (i : Int) : Prop := -2 ^ 31 ≤ i ∧ i < 2 ^ 31

/-- The eight arguments of the `snprintf` call lie in the ranges of their C types. -/
def OptionsInRange (iterations mask workSize : Nat) (stridedIndex memChunkArg compMode : Int)
    (memory : Nat) (algo : Int) : Prop :=
  IsUInt32 iterations ∧ IsUInt32 mask ∧ IsSizeT workSize ∧ IsInt32 stridedIndex ∧
  IsInt32 memChunkArg ∧ IsInt32 compMode ∧ IsSizeT memory ∧ IsInt32 algo

namespace OclCache

/-! ## Helper lemmas -/

theorem prepare_some (plat : Platform) (be : Backend) (c : OclCache) (opts name : String)
    (h : be.deviceName c.m_ctx.DeviceID = some name) :
    prepare plat be c opts =
      (true, { c with m_fileName := cachePath plat (plat.base32_encode
        ((plat.keccak (keyMaterial plat c.m_sourceCode opts name)).take 32)) },
        [Event.getDeviceInfo]) := by
  simp [prepare, h]

theorem prepare_none (plat : Platform) (be : Backend) (c : OclCache) (opts : String)
    (h : be.deviceName c.m_ctx.DeviceID = none) :
    prepare plat be c opts = (false, c, [Event.getDeviceInfo]) := by
  simp [prepare, h]

theorem prepare_fst_true_iff (plat : Platform) (be : Backend) (c : OclCache) (opts : String) :
    (prepare plat be c opts).1 = true ↔ ∃ name, be.deviceName c.m_ctx.DeviceID = some name := by
  cases hd : be.deviceName c.m_ctx.DeviceID with
  | none => simp [prepare_none plat be c opts hd]
  | some name => simp [prepare_some plat be c opts name hd]

theorem waitBuild_trace_mem (be : Backend) (fuel : Nat) :
    ∀ i e, e ∈ (waitBuild be fuel i).2 → e = Event.getBuildStatus ∨ e = Event.sleep 1 := by
  induction fuel with
  | zero => intro i e h; simp [waitBuild] at h
  | succ n ih =>
    intro i e h
    unfold waitBuild at h
    split at h
    · simp at h; simp [h]
    · split at h
      · simp only [List.mem_append, List.mem_cons, List.mem_singleton] at h
        rcases h with h | h
        · simpa using h
        · exact ih _ _ h
      · simp at h; tauto

theorem save_trace_mem (be : Backend) (fs : FS) (c : OclCache) (dev_id : Int) (n : Nat) :
    ∀ e, e ∈ (save be fs c dev_id n).trace →
      e = Event.createDirectory ∨ e = Event.getBinarySizes ∨ e = Event.getBinaries ∨
      e = Event.openWrite c.m_fileName ∨ ∃ data, e = Event.write c.m_fileName data := by
  intro e h
  unfold save at h
  split at h
  · simp at h
  · simp only [] at h
    split at h
    · simp at h; tauto
    · split at h
      · simp at h
        rcases h with h | h | h | h | h
        · tauto
        · tauto
        · tauto
        · tauto
        · right; right; right; right; exact ⟨_, h⟩
      · simp at h; tauto

/-! ## The build-or-load decision -/

/-- C1: after `prepare` succeeds, `load` enters through `createProgramWithBinary`
exactly when caching is enabled and the file at the derived cache path opens for
binary read, and through `createProgramWithSource` exactly in every other case. -/
theorem load_path_decision (plat : Platform) (be : Backend) (fs : FS) (fuel : Nat)
    (c : OclCache) (hprep : (prepare plat be c (options plat c)).1 = true) :
    ((∃ data, Event.createProgramWithBinary data ∈ (load plat be fs fuel c).trace) ↔
      (c.m_config.isOclCache = true ∧ (fs.files (derivedPath plat be c)).isSome = true)) ∧
    ((∃ source, Event.createProgramWithSource source ∈ (load plat be fs fuel c).trace) ↔
      ¬ (c.m_config.isOclCache = true ∧ (fs.files (derivedPath plat be c)).isSome = true)) := by
  obtain ⟨name, hd⟩ := (prepare_fst_true_iff plat be c _).1 hprep
  have hw := waitBuild_trace_mem be fuel 0
  have hwb : ∀ d, Event.createProgramWithBinary d ∉ (waitBuild be fuel 0).2 :=
    fun d h => by rcases hw _ h with h | h <;> cases h
  have hsb : ∀ c1 i n d, Event.createProgramWithBinary d ∉ (save be fs c1 i n).trace :=
    fun c1 i n d h => by
      rcases save_trace_mem be fs c1 i n _ h with h | h | h | h | ⟨_, h⟩ <;> cases h
  have hws : ∀ s, Event.createProgramWithSource s ∉ (waitBuild be fuel 0).2 :=
    fun d h => by rcases hw _ h with h | h <;> cases h
  have hss : ∀ c1 i n s, Event.createProgramWithSource s ∉ (save be fs c1 i n).trace :=
    fun c1 i n d h => by
      rcases save_trace_mem be fs c1 i n _ h with h | h | h | h | ⟨_, h⟩ <;> cases h
  simp only [derivedPath, load, prepare_some plat be c _ name hd]
  generalize cachePath plat _ = path
  cases hf : fs.files path <;> cases hc : c.m_config.isOclCache
  all_goals simp only [Bool.not_true, Bool.not_false, Bool.or_true, Bool.true_or, Bool.or_false,
    Option.isSome_none, Option.isSome_some, if_true, if_false]
  all_goals split_ifs
  all_goals (try split)
  all_goals (try split)
  all_goals simp_all

/-- Witness of C1: a cache hit on a file system that holds a file at every path. -/
theorem load_path_decision_witness :
    (prepare samplePlatform sampleBackend sampleCache (options samplePlatform sampleCache)).1 = true ∧
    (∃ data, Event.createProgramWithBinary data ∈
      (load samplePlatform sampleBackend fullFS 1 sampleCache).trace) :=
  ⟨rfl, ((load_path_decision samplePlatform sampleBackend fullFS 1 sampleCache rfl).1).2
    ⟨rfl, rfl⟩⟩

end OclCache

namespace OclCache

/-- C5: on a cache hit `load` returns `false` as soon as `createProgramWithBinary`
or the following `buildProgram` fails and `true` when both succeed; in either case
neither `createProgramWithSource` nor the source-variant build is called, nothing is
opened for write or written, and the file system (the cache file included) is left
as it was. -/
theorem load_cache_hit_no_fallback (plat : Platform) (be : Backend) (fs : FS) (fuel : Nat)
    (c : OclCache) (data : List Byte)
    (hprep : (prepare plat be c (options plat c)).1 = true)
    (hcache : c.m_config.isOclCache = true)
    (hfile : fs.files (derivedPath plat be c) = some data) :
    ((be.createProgramWithBinary data = false ∨ be.buildProgram none = false) →
      (load plat be fs fuel c).result = Outcome.returned false) ∧
    (be.createProgramWithBinary data = true → be.buildProgram none = true →
      (load plat be fs fuel c).result = Outcome.returned true) ∧
    Event.createProgramWithBinary data ∈ (load plat be fs fuel c).trace ∧
    (∀ source, Event.createProgramWithSource source ∉ (load plat be fs fuel c).trace) ∧
    (∀ opts, Event.buildProgram (some opts) ∉ (load plat be fs fuel c).trace) ∧
    Event.createDirectory ∉ (load plat be fs fuel c).trace ∧
    (∀ path, Event.openWrite path ∉ (load plat be fs fuel c).trace) ∧
    (∀ path bytes, Event.write path bytes ∉ (load plat be fs fuel c).trace) ∧
    (load plat be fs fuel c).fs = fs := by
  obtain ⟨name, hd⟩ := (prepare_fst_true_iff plat be c _).1 hprep
  simp only [derivedPath, prepare_some plat be c _ name hd] at hfile
  simp only [load, prepare_some plat be c _ name hd]
  generalize cachePath plat _ = path at hfile ⊢
  simp only [hfile, hcache, Bool.not_true, Option.isSome_some, Bool.or_false, Option.getD_some]
  split_ifs
  all_goals simp_all

/-- Witness of C5: a stale entry that the backend rejects. -/
theorem load_cache_hit_no_fallback_witness :
    (load samplePlatform { sampleBackend with createProgramWithBinary := fun _ => false }
      fullFS 1 sampleCache).result = Outcome.returned false :=
  (load_cache_hit_no_fallback samplePlatform
    { sampleBackend with createProgramWithBinary := fun _ => false } fullFS 1 sampleCache
    [1, 2, 3] rfl rfl rfl).1 (Or.inl rfl)

/-- C6: with caching disabled `save` returns `true` at once, with an empty trace and
the file system untouched; `load` never reads the contents of a file, never calls
`createProgramWithBinary`, never creates the cache directory, queries binaries,
opens a file for write or writes, leaves the file system as it was, and, once
`prepare` has succeeded, enters through `createProgramWithSource`, whatever the file
system holds at the derived path. -/
theorem load_cache_disabled (plat : Platform) (be : Backend) (fs : FS) (fuel : Nat)
    (c : OclCache) (hcache : c.m_config.isOclCache = false) :
    (∀ dev_id num_devices, save be fs c dev_id num_devices =
      { result := Outcome.returned true, trace := [], fs := fs, cache := c }) ∧
    ((prepare plat be c (options plat c)).1 = true →
      Event.createProgramWithSource c.m_sourceCode ∈ (load plat be fs fuel c).trace) ∧
    (∀ data, Event.createProgramWithBinary data ∉ (load plat be fs fuel c).trace) ∧
    (∀ path, Event.readAll path ∉ (load plat be fs fuel c).trace) ∧
    Event.createDirectory ∉ (load plat be fs fuel c).trace ∧
    Event.getBinarySizes ∉ (load plat be fs fuel c).trace ∧
    Event.getBinaries ∉ (load plat be fs fuel c).trace ∧
    (∀ path, Event.openWrite path ∉ (load plat be fs fuel c).trace) ∧
    (∀ path bytes, Event.write path bytes ∉ (load plat be fs fuel c).trace) ∧
    (load plat be fs fuel c).fs = fs := by
  refine ⟨fun dev_id n => by simp [save, hcache], ?_⟩
  have hw := waitBuild_trace_mem be fuel 0
  have hw1 : ∀ d, Event.createProgramWithBinary d ∉ (waitBuild be fuel 0).2 :=
    fun d h => by rcases hw _ h with h | h <;> cases h
  have hw2 : ∀ p, Event.readAll p ∉ (waitBuild be fuel 0).2 :=
    fun d h => by rcases hw _ h with h | h <;> cases h
  have hw3 : Event.createDirectory ∉ (waitBuild be fuel 0).2 :=
    fun h => by rcases hw _ h with h | h <;> cases h
  have hw4 : Event.getBinarySizes ∉ (waitBuild be fuel 0).2 :=
    fun h => by rcases hw _ h with h | h <;> cases h
  have hw5 : Event.getBinaries ∉ (waitBuild be fuel 0).2 :=
    fun h => by rcases hw _ h with h | h <;> cases h
  have hw6 : ∀ p, Event.openWrite p ∉ (waitBuild be fuel 0).2 :=
    fun d h => by rcases hw _ h with h | h <;> cases h
  have hw7 : ∀ p b, Event.write p b ∉ (waitBuild be fuel 0).2 :=
    fun p b h => by rcases hw _ h with h | h <;> cases h
  cases hd : be.deviceName c.m_ctx.DeviceID with
  | none => simp [load, prepare_none plat be c _ hd]
  | some name =>
    simp only [load, prepare_some plat be c _ name hd]
    generalize cachePath plat _ = path
    simp only [hcache, Bool.not_false, Bool.true_or, if_true]
    split_ifs
    all_goals (try split)
    all_goals (try split)
    all_goals simp_all [save]

/-- Witness of C6: caching disabled on a file system that holds an entry at every path. -/
theorem load_cache_disabled_witness :
    sampleCacheOff.m_config.isOclCache = false ∧
    (∀ data, Event.createProgramWithBinary data ∉
      (load samplePlatform sampleBackend fullFS 1 sampleCacheOff).trace) ∧
    (load samplePlatform sampleBackend fullFS 1 sampleCacheOff).fs = fullFS :=
  ⟨rfl, (load_cache_disabled samplePlatform sampleBackend fullFS 1 sampleCacheOff rfl).2.2.1,
    (load_cache_disabled samplePlatform sampleBackend fullFS 1 sampleCacheOff rfl).2.2.2.2.2.2.2.2.2⟩

/-! ## Key derivation -/

/-- C7: when the device-name query succeeds `prepare` returns `true` and sets the file
name to `prefix + "/.cache/" + encode(hash(source ++ options ++ deviceName ++ arch)) +
".bin"` (with `"\xmrig\.cache\"` on Windows), where `arch` is `"x86"` on a host that
is not x64 and empty otherwise, so equal inputs give equal paths; `prepare` returns
`false` exactly when the device-name query fails; its only outside call is that
query. -/
theorem prepare_path (plat : Platform) (be : Backend) (c : OclCache) (opts : String) :
    (∀ name, be.deviceName c.m_ctx.DeviceID = some name →
      (prepare plat be c opts).1 = true ∧
      (prepare plat be c opts).2.1.m_fileName =
        plat.prefixDir ++ (if plat.win32 then "\\xmrig\\.cache\\" else "/.cache/") ++
          plat.base32_encode ((plat.keccak
            (c.m_sourceCode ++ opts ++ name ++ (if plat.isX64 then "" else "x86"))).take 32) ++
          ".bin" ∧
      (∀ (be2 : Backend) (c2 : OclCache), c2.m_sourceCode = c.m_sourceCode →
        be2.deviceName c2.m_ctx.DeviceID = some name →
        (prepare plat be2 c2 opts).2.1.m_fileName = (prepare plat be c opts).2.1.m_fileName)) ∧
    ((prepare plat be c opts).1 = false ↔ be.deviceName c.m_ctx.DeviceID = none) ∧
    (prepare plat be c opts).2.2 = [Event.getDeviceInfo] := by
  refine ⟨fun name hd => ⟨?_, ?_, ?_⟩, ?_, ?_⟩
  · simp [prepare_some plat be c opts name hd]
  · simp only [prepare_some plat be c opts name hd, cachePath, keyMaterial]
    cases plat.win32 <;> cases plat.isX64 <;> simp
  · intro be2 c2 hsrc hd2
    simp [prepare_some plat be c opts name hd, prepare_some plat be2 c2 opts name hd2, hsrc]
  · cases hd : be.deviceName c.m_ctx.DeviceID with
    | none => simp [prepare_none plat be c opts hd]
    | some name => simp [prepare_some plat be c opts name hd]
  · cases hd : be.deviceName c.m_ctx.DeviceID with
    | none => simp [prepare_none plat be c opts hd]
    | some name => simp [prepare_some plat be c opts name hd]

/-- Witness of C7: the sample device answers the name query. -/
theorem prepare_path_witness :
    (prepare samplePlatform sampleBackend sampleCache "-DALGO=0").1 = true :=
  ((prepare_path samplePlatform sampleBackend sampleCache "-DALGO=0").1 "gfx" rfl).1

end OclCache

namespace OclCache

/-! ## The wait loop -/

theorem waitBuild_finished (be : Backend) (s : Int) (hs : s ≠ CL_BUILD_IN_PROGRESS) (k : Nat) :
    ∀ fuel j, k < fuel →
      (∀ i, i < k → be.buildStatus (j + i) = some CL_BUILD_IN_PROGRESS) →
      be.buildStatus (j + k) = some s →
      (waitBuild be fuel j).1 = WaitExit.finished ∧
      List.count Event.getBuildStatus (waitBuild be fuel j).2 = k + 1 ∧
      List.count (Event.sleep 1) (waitBuild be fuel j).2 = k + 1 := by
  induction k with
  | zero =>
    intro fuel j hfuel _ hlast
    obtain ⟨f, rfl⟩ : ∃ f, fuel = f + 1 := ⟨fuel - 1, by omega⟩
    simp only [Nat.add_zero] at hlast
    simp [waitBuild, hlast, hs]
  | succ k ih =>
    intro fuel j hfuel hprog hlast
    obtain ⟨f, rfl⟩ : ∃ f, fuel = f + 1 := ⟨fuel - 1, by omega⟩
    have h0 : be.buildStatus j = some CL_BUILD_IN_PROGRESS := by
      simpa using hprog 0 (Nat.succ_pos k)
    have hrec := ih f (j + 1) (by omega)
      (fun i hi => by simpa [Nat.add_assoc, Nat.add_comm 1 i] using hprog (i + 1) (by omega))
      (by simpa [Nat.add_assoc, Nat.add_comm 1 k] using hlast)
    obtain ⟨h1, h2, h3⟩ := hrec
    simp only [waitBuild, h0, if_true, h1, List.count_append, h2, h3]
    simp
    omega

theorem waitBuild_queryFailed (be : Backend) (k : Nat) :
    ∀ fuel j, k < fuel →
      (∀ i, i < k → be.buildStatus (j + i) = some CL_BUILD_IN_PROGRESS) →
      be.buildStatus (j + k) = none →
      (waitBuild be fuel j).1 = WaitExit.queryFailed := by
  induction k with
  | zero =>
    intro fuel j hfuel _ hlast
    obtain ⟨f, rfl⟩ : ∃ f, fuel = f + 1 := ⟨fuel - 1, by omega⟩
    simp only [Nat.add_zero] at hlast
    simp [waitBuild, hlast]
  | succ k ih =>
    intro fuel j hfuel hprog hlast
    obtain ⟨f, rfl⟩ : ∃ f, fuel = f + 1 := ⟨fuel - 1, by omega⟩
    have h0 : be.buildStatus j = some CL_BUILD_IN_PROGRESS := by
      simpa using hprog 0 (Nat.succ_pos k)
    have hrec := ih f (j + 1) (by omega)
      (fun i hi => by simpa [Nat.add_assoc, Nat.add_comm 1 i] using hprog (i + 1) (by omega))
      (by simpa [Nat.add_assoc, Nat.add_comm 1 k] using hlast)
    simp only [waitBuild, h0, if_true, hrec]

theorem waitBuild_polling (be : Backend)
    (hall : ∀ i, be.buildStatus i = some CL_BUILD_IN_PROGRESS) :
    ∀ fuel j, (waitBuild be fuel j).1 = WaitExit.polling ∧
      List.count Event.getBuildStatus (waitBuild be fuel j).2 = fuel ∧
      List.count (Event.sleep 1) (waitBuild be fuel j).2 = fuel := by
  intro fuel
  induction fuel with
  | zero => intro j; simp [waitBuild]
  | succ f ih =>
    intro j
    obtain ⟨h1, h2, h3⟩ := ih (j + 1)
    simp only [waitBuild, hall j, if_true, h1, List.count_append, h2, h3]
    simp
    omega

theorem save_count_getBuildStatus (be : Backend) (fs : FS) (c : OclCache) (dev_id : Int)
    (n : Nat) : List.count Event.getBuildStatus (save be fs c dev_id n).trace = 0 := by
  rw [List.count_eq_zero]
  intro h
  rcases save_trace_mem be fs c dev_id n _ h with h | h | h | h | ⟨_, h⟩ <;> cases h

theorem save_count_sleep (be : Backend) (fs : FS) (c : OclCache) (dev_id : Int)
    (n sec : Nat) : List.count (Event.sleep sec) (save be fs c dev_id n).trace = 0 := by
  rw [List.count_eq_zero]
  intro h
  rcases save_trace_mem be fs c dev_id n _ h with h | h | h | h | ⟨_, h⟩ <;> cases h

end OclCache

namespace OclCache

/-! ## The compile path -/

/-- C2: on the compile path `load` returns `false` when program creation from source
fails or when, after a failed build, one of the two build-log queries fails; when the
build fails and the log is fetched, and when a build-status query fails, it returns
the macro `OCL_ERR_API` converted to `bool`, which is `true` for every non-zero value
of the macro. -/
theorem load_compile_failure_result (plat : Platform) (be : Backend) (fs : FS) (fuel : Nat)
    (c : OclCache)
    (hprep : (prepare plat be c (options plat c)).1 = true)
    (hmiss : c.m_config.isOclCache = false ∨ fs.files (derivedPath plat be c) = none) :
    (be.createProgramWithSource c.m_sourceCode = false →
      (load plat be fs fuel c).result = Outcome.returned false) ∧
    (be.createProgramWithSource c.m_sourceCode = true →
      be.buildProgram (some (options plat c)) = false →
      (be.buildLogLength = none ∨ be.buildLog = none) →
      (load plat be fs fuel c).result = Outcome.returned false) ∧
    (be.createProgramWithSource c.m_sourceCode = true →
      be.buildProgram (some (options plat c)) = false →
      be.buildLogLength ≠ none → be.buildLog ≠ none →
      (load plat be fs fuel c).result = Outcome.returned (decide (plat.OCL_ERR_API ≠ 0))) ∧
    (be.createProgramWithSource c.m_sourceCode = true →
      be.buildProgram (some (options plat c)) = true →
      ∀ k, k < fuel → (∀ i, i < k → be.buildStatus i = some CL_BUILD_IN_PROGRESS) →
      be.buildStatus k = none →
      (load plat be fs fuel c).result = Outcome.returned (decide (plat.OCL_ERR_API ≠ 0))) := by
  obtain ⟨name, hd⟩ := (prepare_fst_true_iff plat be c _).1 hprep
  simp only [derivedPath, prepare_some plat be c _ name hd] at hmiss
  simp only [load, prepare_some plat be c _ name hd]
  generalize cachePath plat _ = path at hmiss ⊢
  have hbranch : (!c.m_config.isOclCache || !(fs.files path).isSome) = true := by
    rcases hmiss with h | h <;> simp [h]
  simp only [hbranch, if_true]
  refine ⟨fun h1 => by simp [h1], fun h1 h2 h3 => ?_, fun h1 h2 h3 h4 => ?_,
    fun h1 h2 k hk hprog hlast => ?_⟩
  · simp only [h1, h2, Bool.not_true, Bool.not_false, if_true]
    rcases h3 with h3 | h3
    · simp [h3]
    · cases hl : be.buildLogLength <;> simp [h3]
  · obtain ⟨len, hl⟩ := Option.ne_none_iff_exists'.1 h3
    obtain ⟨log, hg⟩ := Option.ne_none_iff_exists'.1 h4
    simp [h1, h2, hl, hg, intToBool]
  · have hq := waitBuild_queryFailed be k fuel 0 hk (by simpa using hprog) (by simpa using hlast)
    simp only [h1, h2, Bool.not_true]
    rcases hw : waitBuild be fuel 0 with ⟨e, tr⟩
    rw [hw] at hq
    simp only at hq
    subst hq
    simp [intToBool]

/-- Witness of C2: with `OCL_ERR_API = 2`, a cache miss and a build that fails (the
build log is fetched), `load` returns `true`. -/
theorem load_compile_failure_result_witness :
    (load samplePlatform { sampleBackend with buildProgram := fun _ => false }
      emptyFS 1 sampleCache).result = Outcome.returned true :=
  (load_compile_failure_result samplePlatform { sampleBackend with buildProgram := fun _ => false }
    emptyFS 1 sampleCache rfl (Or.inr rfl)).2.2.1 rfl rfl (by decide) (by decide)

/-- C9, as the code has it: when the status query answers "in progress" `k` times and
then another status, `load` makes `k + 1` status queries and sleeps one second after
each of them, `k + 1` sleeps in all, and then returns what `save` returns, whatever
the final status is; when every answer is "in progress" the loop is still polling
after any number of iterations. -/
theorem load_wait_protocol (plat : Platform) (be : Backend) (fs : FS) (c : OclCache)
    (hprep : (prepare plat be c (options plat c)).1 = true)
    (hmiss : c.m_config.isOclCache = false ∨ fs.files (derivedPath plat be c) = none)
    (hsrc : be.createProgramWithSource c.m_sourceCode = true)
    (hbuild : be.buildProgram (some (options plat c)) = true) :
    (∀ k s, (∀ i, i < k → be.buildStatus i = some CL_BUILD_IN_PROGRESS) →
      be.buildStatus k = some s → s ≠ CL_BUILD_IN_PROGRESS →
      ∀ fuel, k < fuel →
        List.count Event.getBuildStatus (load plat be fs fuel c).trace = k + 1 ∧
        List.count (Event.sleep 1) (load plat be fs fuel c).trace = k + 1 ∧
        (load plat be fs fuel c).result =
          (save be fs (prepared plat be c)
            (devId be (prepared plat be c) (numDevices be)) (numDevices be)).result ∧
        (load plat be fs fuel c).fs =
          (save be fs (prepared plat be c)
            (devId be (prepared plat be c) (numDevices be)) (numDevices be)).fs) ∧
    ((∀ i, be.buildStatus i = some CL_BUILD_IN_PROGRESS) →
      ∀ fuel, (load plat be fs fuel c).result = Outcome.polling ∧
        List.count Event.getBuildStatus (load plat be fs fuel c).trace = fuel ∧
        List.count (Event.sleep 1) (load plat be fs fuel c).trace = fuel) := by
  obtain ⟨name, hd⟩ := (prepare_fst_true_iff plat be c _).1 hprep
  simp only [derivedPath, prepare_some plat be c _ name hd] at hmiss
  simp only [load, prepared, prepare_some plat be c _ name hd]
  generalize cachePath plat _ = path at hmiss ⊢
  have hbranch : (!c.m_config.isOclCache || !(fs.files path).isSome) = true := by
    rcases hmiss with h | h <;> simp [h]
  simp only [hbranch, if_true, hsrc, hbuild, Bool.not_true]
  constructor
  · intro k s hprog hlast hs fuel hk
    obtain ⟨h1, h2, h3⟩ := waitBuild_finished be s hs k fuel 0 hk
      (by simpa using hprog) (by simpa using hlast)
    rcases hw : waitBuild be fuel 0 with ⟨e, tr⟩
    rw [hw] at h1 h2 h3
    simp only at h1 h2 h3
    subst h1
    simp [List.count_append, h2, h3, save_count_getBuildStatus, save_count_sleep]
  · intro hall fuel
    obtain ⟨h1, h2, h3⟩ := waitBuild_polling be hall fuel 0
    rcases hw : waitBuild be fuel 0 with ⟨e, tr⟩
    rw [hw] at h1 h2 h3
    simp only at h1 h2 h3
    subst h1
    simp [List.count_append, h2, h3]

/-- Witness of C9: a build that is finished at the first status query. -/
theorem load_wait_protocol_witness :
    List.count Event.getBuildStatus
      (load samplePlatform sampleBackend emptyFS 1 sampleCache).trace = 1 ∧
    List.count (Event.sleep 1)
      (load samplePlatform sampleBackend emptyFS 1 sampleCache).trace = 1 :=
  ⟨((load_wait_protocol samplePlatform sampleBackend emptyFS sampleCache rfl (Or.inr rfl)
      rfl rfl).1 0 CL_BUILD_SUCCESS (fun _ h => absurd h (Nat.not_lt_zero _)) rfl
      (by decide) 1 Nat.one_pos).1,
   ((load_wait_protocol samplePlatform sampleBackend emptyFS sampleCache rfl (Or.inr rfl)
      rfl rfl).1 0 CL_BUILD_SUCCESS (fun _ h => absurd h (Nat.not_lt_zero _)) rfl
      (by decide) 1 Nat.one_pos).2.1⟩

/-- Counterexample to C9 as stated: the first status query already reports a finished
build (`k = 0`), and `load` still sleeps once. -/
theorem load_wait_sleeps_counterexample :
    sampleBackend.buildStatus 0 = some CL_BUILD_SUCCESS ∧
    CL_BUILD_SUCCESS ≠ CL_BUILD_IN_PROGRESS ∧
    waitBuild sampleBackend 1 0 =
      (WaitExit.finished, [Event.getBuildStatus, Event.sleep 1]) ∧
    List.count (Event.sleep 1)
      (load samplePlatform sampleBackend emptyFS 1 sampleCache).trace = 1 := by
  refine ⟨rfl, by decide, by decide, by decide⟩

end OclCache

namespace OclCache

/-! ## Device index and persisting -/

theorem devIdLoop_bounds (current : DeviceId) (l : List DeviceId) :
    ∀ a, a ≤ devIdLoop current l a ∧ devIdLoop current l a ≤ a + l.length := by
  induction l with
  | nil => intro a; simp [devIdLoop]
  | cons d ds ih =>
    intro a
    unfold devIdLoop
    split
    · simp
    · have := ih (a + 1)
      simp only [List.length_cons]
      omega

theorem devIdLoop_eq_length_iff (current : DeviceId) (l : List DeviceId) :
    ∀ a, devIdLoop current l a = a + l.length ↔ current ∉ l := by
  induction l with
  | nil => intro a; simp [devIdLoop]
  | cons d ds ih =>
    intro a
    unfold devIdLoop
    split
    · rename_i h
      subst h
      simp
    · rename_i h
      have := ih (a + 1)
      simp only [List.length_cons, List.mem_cons, not_or]
      constructor
      · intro h2
        exact ⟨fun h3 => h h3.symm, this.1 (by omega)⟩
      · intro h2
        have := this.2 h2.2
        omega

theorem devIdLoop_first (current : DeviceId) (l : List DeviceId) :
    ∀ a, current ∈ l →
      l[devIdLoop current l a - a]? = some current ∧
      ∀ j, j < devIdLoop current l a - a → l[j]? ≠ some current := by
  induction l with
  | nil => intro a h; simp at h
  | cons d ds ih =>
    intro a hmem
    unfold devIdLoop
    split
    · rename_i h
      subst h
      simp
    · rename_i h
      have hmem2 : current ∈ ds := by
        rcases List.mem_cons.1 hmem with h2 | h2
        · exact absurd h2.symm h
        · exact h2
      obtain ⟨h1, h2⟩ := ih (a + 1) hmem2
      have hb := devIdLoop_bounds current ds (a + 1)
      have hidx : devIdLoop current ds (a + 1) - a = (devIdLoop current ds (a + 1) - (a + 1)) + 1 := by
        omega
      rw [hidx]
      refine ⟨by simpa using h1, fun j hj => ?_⟩
      cases j with
      | zero => simpa using h
      | succ j => simpa using h2 j (by omega)

theorem getProgramInfo_length {α : Type} (answer : Option (List α)) (buf : List α) :
    (getProgramInfo answer buf).2.length = buf.length := by
  unfold getProgramInfo
  split
  · rfl
  · split
    · simp only [List.length_append, List.length_drop]
      omega
    · rfl

theorem getProgramInfo_exact {α : Type} (a buf : List α) (h : a.length = buf.length) :
    getProgramInfo (some a) buf = (true, a) := by
  simp [getProgramInfo, h, List.drop_of_length_le]

theorem binarySizes_length (be : Backend) (n : Nat) : (binarySizes be n).length = n := by
  simp [binarySizes, getProgramInfo_length]

theorem programStorage_length (be : Backend) (n : Nat) : (programStorage be n).length = n := by
  simp [programStorage, binarySizes_length]

end OclCache

namespace OclCache

theorem fillStorage_length (binary buf : List Byte) :
    (fillStorage binary buf).length = buf.length := by
  simp only [fillStorage, List.length_take, List.length_append, List.length_drop]
  omega

theorem fillStorage_exact (binary : List Byte) (size : Nat) (h : binary.length = size) :
    fillStorage binary (List.replicate size 0) = binary := by
  subst h
  simp [fillStorage]

theorem getD_filled (bins storage : List (List Byte)) :
    ∀ i, i < bins.length → bins.length ≤ storage.length →
      (List.zipWith fillStorage bins storage ++ storage.drop bins.length).getD i [] =
        fillStorage (bins.getD i []) (storage.getD i []) := by
  induction bins generalizing storage with
  | nil => intro i hi; simp at hi
  | cons b bs ih =>
    intro i hi hl
    cases storage with
    | nil => simp at hl
    | cons s ss =>
      cases i with
      | zero => simp
      | succ i =>
        have := ih ss i (by simpa using hi) (by simpa using hl)
        simpa using this

theorem getD_programStorage (be : Backend) (n i : Nat) :
    (programStorage be n).getD i [] = List.replicate ((binarySizes be n).getD i 0) 0 := by
  unfold programStorage
  generalize binarySizes be n = l
  induction l generalizing i with
  | nil => simp
  | cons a l ih =>
    cases i with
    | zero => simp
    | succ i => simpa using ih i

/-- C3: when the backend's device list contains the current device, `devId` returns
the position of its first occurrence in that list, and `save` (caching enabled, the
file opens and the write completes) stores at the cache path exactly the receiving
buffer at that position, whose size is the one the backend reported at that
position and whose bytes are the backend's binary at that position whenever the
reported size is that binary's size; neither result depends on `m_index` or
`deviceIdx`. -/
theorem save_writes_current_device_binary (be : Backend) (fs : FS) (c : OclCache)
    (devs : List DeviceId) (sizes : List Nat) (bins : List (List Byte))
    (hcache : c.m_config.isOclCache = true)
    (hdevs : be.programDevices = some devs) (hmem : c.m_ctx.DeviceID ∈ devs)
    (hsizes : be.programBinarySizes = some sizes) (hbins : be.programBinaries = some bins)
    (hls : sizes.length = devs.length) (hlb : bins.length = devs.length)
    (hopen : fs.canOpenWrite c.m_fileName = true)
    (hwrite : fs.writeLimit c.m_fileName = none) :
    ∃ i : Nat, devId be c devs.length = (i : Int) ∧ i < devs.length ∧
      devs[i]? = some c.m_ctx.DeviceID ∧
      (∀ j, j < i → devs[j]? ≠ some c.m_ctx.DeviceID) ∧
      (save be fs c (devId be c devs.length) devs.length).result = Outcome.returned true ∧
      (save be fs c (devId be c devs.length) devs.length).fs.files c.m_fileName =
        some (fillStorage (bins.getD i []) (List.replicate (sizes.getD i 0) 0)) ∧
      (fillStorage (bins.getD i []) (List.replicate (sizes.getD i 0) 0)).length =
        sizes.getD i 0 ∧
      ((bins.getD i []).length = sizes.getD i 0 →
        (save be fs c (devId be c devs.length) devs.length).fs.files c.m_fileName =
          some (bins.getD i [])) ∧
      (∀ (m_index : Int) (deviceIdx : Nat),
        devId be { c with m_index := m_index, m_ctx := { c.m_ctx with deviceIdx := deviceIdx } }
          devs.length = devId be c devs.length ∧
        (save be fs { c with m_index := m_index,
                             m_ctx := { c.m_ctx with deviceIdx := deviceIdx } }
          (devId be c devs.length) devs.length).fs.files c.m_fileName =
          (save be fs c (devId be c devs.length) devs.length).fs.files c.m_fileName ∧
        (save be fs { c with m_index := m_index,
                             m_ctx := { c.m_ctx with deviceIdx := deviceIdx } }
          (devId be c devs.length) devs.length).result =
          (save be fs c (devId be c devs.length) devs.length).result) := by
  have hids : devicesIds be devs.length = devs := by
    have hx := getProgramInfo_exact devs (List.replicate devs.length (0 : DeviceId)) (by simp)
    simp [devicesIds, hdevs, hx]
  have hbs : binarySizes be devs.length = sizes := by
    have hx := getProgramInfo_exact sizes (List.replicate devs.length (0 : Nat)) (by simpa using hls)
    simp [binarySizes, hsizes, hx]
  have hb := devIdLoop_bounds c.m_ctx.DeviceID devs 0
  have hf := devIdLoop_first c.m_ctx.DeviceID devs 0 hmem
  have hne : devIdLoop c.m_ctx.DeviceID devs 0 ≠ 0 + devs.length :=
    fun h => ((devIdLoop_eq_length_iff c.m_ctx.DeviceID devs 0).1 h) hmem
  simp only [Nat.zero_add, Nat.sub_zero] at hb hf hne
  have hi : devIdLoop c.m_ctx.DeviceID devs 0 < devs.length := by omega
  have hdev : devId be c devs.length = ((devIdLoop c.m_ctx.DeviceID devs 0 : Nat) : Int) := by
    simp [devId, hids]
  have hst : (programStorage be devs.length).length = devs.length := programStorage_length be _
  have hq : getProgramBinaries be.programBinaries (programStorage be devs.length) =
      (true, List.zipWith fillStorage bins (programStorage be devs.length) ++
        (programStorage be devs.length).drop bins.length) := by
    simp [getProgramBinaries, hbins, hst, hlb]
  have hdata : ((List.zipWith fillStorage bins (programStorage be devs.length) ++
        (programStorage be devs.length).drop bins.length).getD
          (devIdLoop c.m_ctx.DeviceID devs 0) []).take
            (sizes.getD (devIdLoop c.m_ctx.DeviceID devs 0) 0) =
      fillStorage (bins.getD (devIdLoop c.m_ctx.DeviceID devs 0) [])
        (List.replicate (sizes.getD (devIdLoop c.m_ctx.DeviceID devs 0) 0) 0) := by
    rw [getD_filled bins _ _ (by omega) (by omega), getD_programStorage, hbs]
    apply List.take_of_length_le
    rw [fillStorage_length]
    simp
  have hsave : ∀ c2 : OclCache, c2.m_config = c.m_config → c2.m_fileName = c.m_fileName →
      (save be fs c2 (devId be c devs.length) devs.length).result = Outcome.returned true ∧
      (save be fs c2 (devId be c devs.length) devs.length).fs.files c.m_fileName =
        some (fillStorage (bins.getD (devIdLoop c.m_ctx.DeviceID devs 0) [])
          (List.replicate (sizes.getD (devIdLoop c.m_ctx.DeviceID devs 0) 0) 0)) := by
    intro c2 hc2 hf2
    have hin : (0 : Int) ≤ ((devIdLoop c.m_ctx.DeviceID devs 0 : Nat) : Int) ∧
        (((devIdLoop c.m_ctx.DeviceID devs 0 : Nat) : Int)).toNat < devs.length := by
      constructor
      · exact Int.natCast_nonneg _
      · simpa using hi
    simp only [save, hc2, hcache, Bool.not_true, hq, hdev, hf2, hbs]
    simp only [if_false, Bool.false_eq_true, hin, and_self, if_true, Int.toNat_ofNat, hdata]
    simp [writeFile, hopen, hwrite, hi]
  refine ⟨devIdLoop c.m_ctx.DeviceID devs 0, hdev, hi, hf.1, hf.2, (hsave c rfl rfl).1,
    (hsave c rfl rfl).2, ?_, ?_, ?_⟩
  · rw [fillStorage_length]
    simp
  · intro hlen
    rw [(hsave c rfl rfl).2, fillStorage_exact _ _ hlen]
  · intro m_index deviceIdx
    have h1 := hsave { c with m_index := m_index,
                              m_ctx := { c.m_ctx with deviceIdx := deviceIdx } } rfl rfl
    have h2 := hsave c rfl rfl
    exact ⟨by simp [devId], h1.2.trans h2.2.symm, h1.1.trans h2.1.symm⟩

/-- Witness of C3: the backend lists devices 7 and 9 and the object is for device 9,
so the index is 1 and the second binary is stored. -/
theorem save_writes_current_device_binary_witness :
    devId sampleBackend sampleCache 2 = 1 ∧
    (save sampleBackend emptyFS sampleCache (devId sampleBackend sampleCache 2) 2).fs.files
      sampleCache.m_fileName = some [3, 4, 5] := by
  obtain ⟨i, h1, _, _, _, _, _, _, h3, _⟩ :=
    save_writes_current_device_binary sampleBackend emptyFS sampleCache [7, 9] [2, 3]
      [[1, 2], [3, 4, 5]] rfl rfl (by decide) rfl rfl rfl rfl rfl rfl
  have hid : devId sampleBackend sampleCache 2 = 1 := by decide
  have hi : i = 1 := by
    have h := h1.symm.trans hid
    exact_mod_cast h
  subst hi
  exact ⟨hid, h3 rfl⟩

end OclCache

/-! ## Decimal conversions of `snprintf` -/

theorem digitChar_not_sep : ∀ d, d < 10 → digitChar d ≠ ' ' ∧ digitChar d ≠ '-' := by decide

theorem digitChar_inj : ∀ a, a < 10 → ∀ b, b < 10 → digitChar a = digitChar b → a = b := by
  decide

/-- Decimal digits of a number, most significant first; `0` has the digit `0`. -/
theorem fmtUnsigned_data (n : Nat) :
    (fmtUnsigned n).data =
      (if n = 0 then [0] else (Nat.digits 10 n).reverse).map digitChar := by
  unfold fmtUnsigned
  split
  · rfl
  · rfl

theorem decimal_digits_lt (n : Nat) :
    ∀ d, d ∈ (if n = 0 then [0] else (Nat.digits 10 n).reverse) → d < 10 := by
  intro d hd
  split at hd
  · simp at hd
    omega
  · exact Nat.digits_lt_base (by norm_num) (List.mem_reverse.1 hd)

theorem decimal_digits_value (n : Nat) :
    Nat.ofDigits 10 (if n = 0 then [0] else (Nat.digits 10 n).reverse).reverse = n := by
  split
  · rename_i h
    subst h
    simp [Nat.ofDigits]
  · simp [Nat.ofDigits_digits]

theorem map_digitChar_inj : ∀ l1 l2 : List Nat, (∀ d, d ∈ l1 → d < 10) →
    (∀ d, d ∈ l2 → d < 10) → l1.map digitChar = l2.map digitChar → l1 = l2 := by
  intro l1
  induction l1 with
  | nil => intro l2 _ _ h; cases l2 <;> simp_all
  | cons a as ih =>
    intro l2 h1 h2 h
    cases l2 with
    | nil => simp at h
    | cons b bs =>
      simp only [List.map_cons, List.cons.injEq] at h
      have hab := digitChar_inj a (h1 a (by simp)) b (h2 b (by simp)) h.1
      have := ih bs (fun d hd => h1 d (by simp [hd])) (fun d hd => h2 d (by simp [hd])) h.2
      simp [hab, this]

theorem fmtUnsigned_inj (a b : Nat) (h : (fmtUnsigned a).data = (fmtUnsigned b).data) :
    a = b := by
  rw [fmtUnsigned_data, fmtUnsigned_data] at h
  have := map_digitChar_inj _ _ (decimal_digits_lt a) (decimal_digits_lt b) h
  rw [← decimal_digits_value a, ← decimal_digits_value b, this]

theorem fmtUnsigned_chars (n : Nat) (ch : Char) (h : ch ∈ (fmtUnsigned n).data) :
    ch ≠ ' ' ∧ ch ≠ '-' := by
  rw [fmtUnsigned_data] at h
  obtain ⟨d, hd, rfl⟩ := List.mem_map.1 h
  exact digitChar_not_sep d (decimal_digits_lt n d hd)

theorem fmtUnsigned_length (n k : Nat) (hk : 0 < k) (h : n < 10 ^ k) :
    (fmtUnsigned n).data.length ≤ k := by
  rw [fmtUnsigned_data, List.length_map]
  split
  · simpa using hk
  · rename_i hn
    rw [List.length_reverse]
    have h1 := Nat.base_pow_length_digits_le 10 n (by norm_num) hn
    have h2 : 10 ^ (Nat.digits 10 n).length < 10 ^ (k + 1) := by
      rw [pow_succ]
      omega
    have := (Nat.pow_lt_pow_iff_right (by norm_num : 1 < 10)).1 h2
    omega

theorem fmtSigned_data (i : Int) :
    (fmtSigned i).data =
      if i < 0 then '-' :: (fmtUnsigned i.natAbs).data else (fmtUnsigned i.natAbs).data := by
  unfold fmtSigned
  split
  · simp [String.data_append]
  · rfl

theorem fmtSigned_inj (a b : Int) (h : (fmtSigned a).data = (fmtSigned b).data) : a = b := by
  rw [fmtSigned_data, fmtSigned_data] at h
  by_cases ha : a < 0 <;> by_cases hb : b < 0
  · simp only [ha, hb, if_true, List.cons.injEq, true_and] at h
    have := fmtUnsigned_inj _ _ h
    omega
  · simp only [ha, hb, if_true, if_false] at h
    have hm : '-' ∈ (fmtUnsigned b.natAbs).data := by rw [← h]; simp
    exact absurd rfl (fmtUnsigned_chars _ _ hm).2
  · simp only [ha, hb, if_true, if_false] at h
    have hm : '-' ∈ (fmtUnsigned a.natAbs).data := by rw [h]; simp
    exact absurd rfl (fmtUnsigned_chars _ _ hm).2
  · simp only [ha, hb, if_false] at h
    have := fmtUnsigned_inj _ _ h
    omega

theorem fmtSigned_no_space (i : Int) : ' ' ∉ (fmtSigned i).data := by
  rw [fmtSigned_data]
  intro h
  split at h
  · rcases List.mem_cons.1 h with h | h
    · exact absurd h (by decide)
    · exact absurd rfl (fmtUnsigned_chars _ _ h).1
  · exact absurd rfl (fmtUnsigned_chars _ _ h).1

theorem fmtUnsigned_no_space (n : Nat) : ' ' ∉ (fmtUnsigned n).data :=
  fun h => absurd rfl (fmtUnsigned_chars _ _ h).1

theorem fmtSigned_length (i : Int) (h : IsInt32 i) : (fmtSigned i).data.length ≤ 11 := by
  rw [fmtSigned_data]
  have hb : i.natAbs < 10 ^ 10 := by
    unfold IsInt32 at h
    omega
  have := fmtUnsigned_length i.natAbs 10 (by norm_num) hb
  split
  · simp only [List.length_cons]
    omega
  · omega

/-- Two lists that agree up to and after a separator absent from both fronts. -/
theorem split_at_separator {α : Type} (sep : α) :
    ∀ (xs ys r1 r2 : List α), sep ∉ xs → sep ∉ ys → xs ++ sep :: r1 = ys ++ sep :: r2 →
      xs = ys ∧ r1 = r2 := by
  intro xs
  induction xs with
  | nil =>
    intro ys r1 r2 _ hy h
    cases ys with
    | nil => simpa using h
    | cons y ys =>
      simp only [List.nil_append, List.cons_append, List.cons.injEq] at h
      exact absurd (by simp [h.1]) hy
  | cons x xs ih =>
    intro ys r1 r2 hx hy h
    cases ys with
    | nil =>
      simp only [List.nil_append, List.cons_append, List.cons.injEq] at h
      exact absurd (by simp [h.1]) hx
    | cons y ys =>
      simp only [List.cons_append, List.cons.injEq] at h
      have := ih ys r1 r2 (fun hm => hx (by simp [hm])) (fun hm => hy (by simp [hm])) h.2
      simp [h.1, this.1, this.2]

theorem formatOptions_data (iterations mask workSize : Nat)
    (stridedIndex memChunkArg compMode : Int) (memory : Nat) (algo : Int)
    (h : OptionsInRange iterations mask workSize stridedIndex memChunkArg compMode memory algo) :
    (formatOptions iterations mask workSize stridedIndex memChunkArg compMode memory algo).data =
      "-DITERATIONS=".data ++ ((fmtUnsigned iterations).data ++ ' ' ::
      ("-DMASK=".data ++ ((fmtUnsigned mask).data ++ ' ' ::
      ("-DWORKSIZE=".data ++ ((fmtUnsigned workSize).data ++ ' ' ::
      ("-DSTRIDED_INDEX=".data ++ ((fmtSigned stridedIndex).data ++ ' ' ::
      ("-DMEM_CHUNK_EXPONENT=".data ++ ((fmtSigned memChunkArg).data ++ ' ' ::
      ("-DCOMP_MODE=".data ++ ((fmtSigned compMode).data ++ ' ' ::
      ("-DMEMORY=".data ++ ((fmtUnsigned memory).data ++ ' ' ::
      ("-DALGO=".data ++ (fmtSigned algo).data)))))))))))))) := by
  obtain ⟨h1, h2, h3, h4, h5, h6, h7, h8⟩ := h
  have l1 := fmtUnsigned_length iterations 10 (by norm_num)
    (lt_trans h1 (by norm_num))
  have l2 := fmtUnsigned_length mask 10 (by norm_num) (lt_trans h2 (by norm_num))
  have l3 := fmtUnsigned_length workSize 20 (by norm_num) (lt_trans h3 (by norm_num))
  have l4 := fmtSigned_length stridedIndex h4
  have l5 := fmtSigned_length memChunkArg h5
  have l6 := fmtSigned_length compMode h6
  have l7 := fmtUnsigned_length memory 20 (by norm_num) (lt_trans h7 (by norm_num))
  have l8 := fmtSigned_length algo h8
  unfold formatOptions
  simp only [String.data_append, List.append_assoc, List.cons_append, List.nil_append]
  apply List.take_of_length_le
  simp only [List.length_append, List.length_cons, List.length_nil]
  omega

theorem formatOptions_inj (i1 m1 w1 : Nat) (s1 k1 c1 : Int) (y1 : Nat) (a1 : Int)
    (i2 m2 w2 : Nat) (s2 k2 c2 : Int) (y2 : Nat) (a2 : Int)
    (h1 : OptionsInRange i1 m1 w1 s1 k1 c1 y1 a1) (h2 : OptionsInRange i2 m2 w2 s2 k2 c2 y2 a2)
    (h : formatOptions i1 m1 w1 s1 k1 c1 y1 a1 = formatOptions i2 m2 w2 s2 k2 c2 y2 a2) :
    i1 = i2 ∧ m1 = m2 ∧ w1 = w2 ∧ s1 = s2 ∧ k1 = k2 ∧ c1 = c2 ∧ y1 = y2 ∧ a1 = a2 := by
  have hd := congrArg String.data h
  rw [formatOptions_data _ _ _ _ _ _ _ _ h1, formatOptions_data _ _ _ _ _ _ _ _ h2] at hd
  have e1 := split_at_separator ' ' _ _ _ _ (fmtUnsigned_no_space i1) (fmtUnsigned_no_space i2)
    (List.append_cancel_left hd)
  have e2 := split_at_separator ' ' _ _ _ _ (fmtUnsigned_no_space m1) (fmtUnsigned_no_space m2)
    (List.append_cancel_left e1.2)
  have e3 := split_at_separator ' ' _ _ _ _ (fmtUnsigned_no_space w1) (fmtUnsigned_no_space w2)
    (List.append_cancel_left e2.2)
  have e4 := split_at_separator ' ' _ _ _ _ (fmtSigned_no_space s1) (fmtSigned_no_space s2)
    (List.append_cancel_left e3.2)
  have e5 := split_at_separator ' ' _ _ _ _ (fmtSigned_no_space k1) (fmtSigned_no_space k2)
    (List.append_cancel_left e4.2)
  have e6 := split_at_separator ' ' _ _ _ _ (fmtSigned_no_space c1) (fmtSigned_no_space c2)
    (List.append_cancel_left e5.2)
  have e7 := split_at_separator ' ' _ _ _ _ (fmtUnsigned_no_space y1) (fmtUnsigned_no_space y2)
    (List.append_cancel_left e6.2)
  have e8 := List.append_cancel_left e7.2
  exact ⟨fmtUnsigned_inj _ _ e1.1, fmtUnsigned_inj _ _ e2.1, fmtUnsigned_inj _ _ e3.1,
    fmtSigned_inj _ _ e4.1, fmtSigned_inj _ _ e5.1, fmtSigned_inj _ _ e6.1,
    fmtUnsigned_inj _ _ e7.1, fmtSigned_inj _ _ e8⟩

theorem memChunkArg_inj : ∀ m1, m1 < 32 → ∀ m2, m2 < 32 →
    memChunkArg m1 = memChunkArg m2 → m1 = m2 := by
  decide

theorem memChunkArg_range : ∀ m, m < 32 → -2 ^ 31 ≤ memChunkArg m ∧ memChunkArg m < 2 ^ 31 := by
  decide

namespace OclCache

/-! ## Sensitivity of the cache key -/

theorem keyMaterial_data (plat : Platform) (source opts deviceName : String) :
    (keyMaterial plat source opts deviceName).data =
      source.data ++ (opts.data ++ (deviceName.data ++
        (if plat.isX64 then [] else "x86".data))) := by
  unfold keyMaterial
  cases plat.isX64 <;> simp [String.data_append]

theorem cachePath_inj (plat : Platform) (h1 h2 : String)
    (h : cachePath plat h1 = cachePath plat h2) : h1 = h2 := by
  have hd := congrArg String.data h
  unfold cachePath at hd
  apply String.ext
  cases hw : plat.win32
  · simp only [hw, Bool.false_eq_true, if_false, String.data_append, List.append_assoc] at hd
    exact List.append_cancel_right (List.append_cancel_left (List.append_cancel_left hd))
  · simp only [hw, if_true, String.data_append, List.append_assoc] at hd
    exact List.append_cancel_right (List.append_cancel_left (List.append_cancel_left hd))

/-- C8: for a fixed architecture class, changing the source text, the options string
or the device name alone changes the key material that is hashed; two derivations
whose encoded hashes differ get different cache paths; and for arguments in the
ranges of their C types the options string determines each of the eight numbers fed
to the format string, where for `memChunk < 32` the fifth number determines
`memChunk`; so two objects whose option strings agree agree in every one of these
fields. -/
theorem cache_key_sensitivity (plat : Platform) :
    (∀ s1 s2 o d : String, s1 ≠ s2 → keyMaterial plat s1 o d ≠ keyMaterial plat s2 o d) ∧
    (∀ s o1 o2 d : String, o1 ≠ o2 → keyMaterial plat s o1 d ≠ keyMaterial plat s o2 d) ∧
    (∀ s o d1 d2 : String, d1 ≠ d2 → keyMaterial plat s o d1 ≠ keyMaterial plat s o d2) ∧
    (∀ (be1 be2 : Backend) (c1 c2 : OclCache) (o1 o2 n1 n2 : String),
      be1.deviceName c1.m_ctx.DeviceID = some n1 → be2.deviceName c2.m_ctx.DeviceID = some n2 →
      plat.base32_encode ((plat.keccak (keyMaterial plat c1.m_sourceCode o1 n1)).take 32) ≠
        plat.base32_encode ((plat.keccak (keyMaterial plat c2.m_sourceCode o2 n2)).take 32) →
      (prepare plat be1 c1 o1).2.1.m_fileName ≠ (prepare plat be2 c2 o2).2.1.m_fileName) ∧
    (∀ (i1 m1 w1 : Nat) (s1 k1 c1 : Int) (y1 : Nat) (a1 : Int)
       (i2 m2 w2 : Nat) (s2 k2 c2 : Int) (y2 : Nat) (a2 : Int),
      OptionsInRange i1 m1 w1 s1 k1 c1 y1 a1 → OptionsInRange i2 m2 w2 s2 k2 c2 y2 a2 →
      formatOptions i1 m1 w1 s1 k1 c1 y1 a1 = formatOptions i2 m2 w2 s2 k2 c2 y2 a2 →
      i1 = i2 ∧ m1 = m2 ∧ w1 = w2 ∧ s1 = s2 ∧ k1 = k2 ∧ c1 = c2 ∧ y1 = y2 ∧ a1 = a2) ∧
    (∀ m1 m2 : Nat, m1 < 32 → m2 < 32 →
      IsInt32 (memChunkArg m1) ∧ (memChunkArg m1 = memChunkArg m2 → m1 = m2)) ∧
    (∀ c1 c2 : OclCache,
      IsUInt32 (plat.cn_select_iter c1.m_config.algo) →
      IsUInt32 (plat.cn_select_iter c2.m_config.algo) →
      IsUInt32 (plat.cn_select_mask c1.m_config.algo) →
      IsUInt32 (plat.cn_select_mask c2.m_config.algo) →
      IsSizeT (plat.cn_select_memory c1.m_config.algo) →
      IsSizeT (plat.cn_select_memory c2.m_config.algo) →
      IsSizeT c1.m_ctx.workSize → IsSizeT c2.m_ctx.workSize →
      IsInt32 c1.m_ctx.stridedIndex → IsInt32 c2.m_ctx.stridedIndex →
      c1.m_ctx.memChunk < 32 → c2.m_ctx.memChunk < 32 →
      IsInt32 c1.m_ctx.compMode → IsInt32 c2.m_ctx.compMode →
      IsInt32 c1.m_config.algo → IsInt32 c2.m_config.algo →
      options plat c1 = options plat c2 →
      plat.cn_select_iter c1.m_config.algo = plat.cn_select_iter c2.m_config.algo ∧
      plat.cn_select_mask c1.m_config.algo = plat.cn_select_mask c2.m_config.algo ∧
      c1.m_ctx.workSize = c2.m_ctx.workSize ∧
      c1.m_ctx.stridedIndex = c2.m_ctx.stridedIndex ∧
      c1.m_ctx.memChunk = c2.m_ctx.memChunk ∧
      c1.m_ctx.compMode = c2.m_ctx.compMode ∧
      plat.cn_select_memory c1.m_config.algo = plat.cn_select_memory c2.m_config.algo ∧
      c1.m_config.algo = c2.m_config.algo) := by
  refine ⟨?_, ?_, ?_, ?_, ?_, ?_, ?_⟩
  · intro s1 s2 o d hne h
    have hd := congrArg String.data h
    rw [keyMaterial_data, keyMaterial_data] at hd
    exact hne (String.ext (List.append_cancel_right hd))
  · intro s o1 o2 d hne h
    have hd := congrArg String.data h
    rw [keyMaterial_data, keyMaterial_data] at hd
    exact hne (String.ext (List.append_cancel_right (List.append_cancel_left hd)))
  · intro s o d1 d2 hne h
    have hd := congrArg String.data h
    rw [keyMaterial_data, keyMaterial_data] at hd
    exact hne (String.ext (List.append_cancel_right
      (List.append_cancel_left (List.append_cancel_left hd))))
  · intro be1 be2 c1 c2 o1 o2 n1 n2 hd1 hd2 hne h
    rw [prepare_some plat be1 c1 o1 n1 hd1, prepare_some plat be2 c2 o2 n2 hd2] at h
    exact hne (cachePath_inj plat _ _ h)
  · intro i1 m1 w1 s1 k1 c1 y1 a1 i2 m2 w2 s2 k2 c2 y2 a2 h1 h2 h
    exact formatOptions_inj i1 m1 w1 s1 k1 c1 y1 a1 i2 m2 w2 s2 k2 c2 y2 a2 h1 h2 h
  · intro m1 m2 h1 h2
    exact ⟨memChunkArg_range m1 h1, memChunkArg_inj m1 h1 m2 h2⟩
  · intro c1 c2 hi1 hi2 hm1 hm2 hy1 hy2 hw1 hw2 hs1 hs2 hk1 hk2 hc1 hc2 ha1 ha2 h
    have := formatOptions_inj _ _ _ _ _ _ _ _ _ _ _ _ _ _ _ _
      ⟨hi1, hm1, hw1, hs1, memChunkArg_range _ hk1, hc1, hy1, ha1⟩
      ⟨hi2, hm2, hw2, hs2, memChunkArg_range _ hk2, hc2, hy2, ha2⟩ h
    exact ⟨this.1, this.2.1, this.2.2.1, this.2.2.2.1,
      memChunkArg_inj _ hk1 _ hk2 this.2.2.2.2.1, this.2.2.2.2.2.1, this.2.2.2.2.2.2.1,
      this.2.2.2.2.2.2.2⟩

/-- Witness of C8: two option strings that differ in the work size only. -/
theorem cache_key_sensitivity_witness :
    formatOptions 524288 2097136 8 1 4 1 2097152 0 ≠
      formatOptions 524288 2097136 16 1 4 1 2097152 0 :=
  fun h => absurd ((cache_key_sensitivity samplePlatform).2.2.2.2.1
    524288 2097136 8 1 4 1 2097152 0 524288 2097136 16 1 4 1 2097152 0
    (by unfold OptionsInRange IsUInt32 IsSizeT IsInt32; norm_num)
    (by unfold OptionsInRange IsUInt32 IsSizeT IsInt32; norm_num) h).2.2.1 (by decide)

end OclCache
